import Mathlib

/-!
# Verification of the nih-log logging back end

A shallow embedding of the nih-log crate (`src/logger.rs`, `src/target.rs`,
`src/target/windbg.rs`, `src/builder.rs`) together with proofs about its
filtering, rendering, target-resolution and debugger-writer behaviour.

Modelling conventions:
* Rust `log::Level` / `log::LevelFilter` are embedded with their numeric
  discriminants (`Error = 1` … `Trace = 5`, `Off = 0`); the facade compares
  them as integers.
* The `HashSet<String>` blacklist is embedded as a `List String` with
  set-semantics insertion; `contains` is exact string equality.
* Conditional compilation (`#[cfg(windows)]`) is embedded as an explicit
  `windows : Bool` parameter.
* External effects are explicit: the environment is an `Option String`
  (the value of `NIH_LOG`, `none` when unset), the filesystem is an oracle
  `fileOpens : String → Bool`, writes to a target are returned as strings,
  `eprintln!` diagnostics are counted, and a Rust panic is `Option.none`.
* Terminal colour control sequences (`set_fg_color`/`reset_colors`) are
  side channels of the `termcolor` stream and are elided from the rendered
  byte stream; no claim concerns them.
-/

namespace NihLog

/-- `log::Level` from the facade crate, discriminants `Error = 1 … Trace = 5`. -/
inductive Level
  | Error
  | Warn
  | Info
  | Debug
  | Trace
deriving DecidableEq

/-- Numeric value of a `log::Level`, used by the facade's integer comparison. -/
def Level.toNat : Level → Nat
  | .Error => 1
  | .Warn => 2
  | .Info => 3
  | .Debug => 4
  | .Trace => 5

/-- `log::LevelFilter`, discriminants `Off = 0 … Trace = 5`. -/
inductive LevelFilter
  | Off
  | Error
  | Warn
  | Info
  | Debug
  | Trace
deriving DecidableEq

/-- Numeric value of a `log::LevelFilter`. -/
def LevelFilter.toNat : LevelFilter → Nat
  | .Off => 0
  | .Error => 1
  | .Warn => 2
  | .Info => 3
  | .Debug => 4
  | .Trace => 5

/-- `Level <= LevelFilter` as the facade defines it: comparison of the
numeric discriminants. -/
def levelLeFilter (l : Level) (f : LevelFilter) : Bool :=
  decide (l.toNat ≤ f.toNat)

/-- Helper for `str::split_once`: split a character list at the first
occurrence of `c`, returning the parts before and after it, or `none` when
`c` does not occur. -/
def splitOnceAux (c : Char) : List Char → Option (List Char × List Char)
  | [] => none
  | x :: xs =>
    if x = c then some ([], xs)
    else (splitOnceAux c xs).map (fun p => (x :: p.1, p.2))

/-- Rust `str::split_once(c)` on the embedded strings. -/
def splitOnce (s : String) (c : Char) : Option (String × String) :=
  (splitOnceAux c s.data).map (fun p => (⟨p.1⟩, ⟨p.2⟩))

/-- The output-target variants of `OutputTargetImpl` in `src/target.rs`.
`stderrOrWinDbg` is the dynamic Windows-only default, `stderr` the explicit
stderr stream, `winDbg` the explicit debugger channel, `file` a buffered
file.  The buffering/stream state carried by the Rust variants is not
observable by any claim; the variant tag and file path are. -/
inductive TargetModel
  | stderrOrWinDbg
  | stderr
  | winDbg
  | file (path : String)
deriving DecidableEq

/-- The `Logger` struct from `src/logger.rs`.  `local_time_offset` only
feeds the externally-sourced wall-clock time, which the render model takes
as a pre-formatted parameter; `output_target` keeps the variant of the
mutex-guarded target. -/
structure Logger where
  max_log_level : LevelFilter
  always_show_module_path : Bool
  output_target : TargetModel
  module_blacklist : List String

/-- `Logger::target_enabled` (`src/logger.rs` lines 44–54): a target passes
the filter unless it is blacklisted, or its pre-colon crate part is. -/
def Logger.target_enabled (l : Logger) (target : String) : Bool :=
  match splitOnce target ':' with
  | some (crate_name, _) =>
    if crate_name ∈ l.module_blacklist then false
    else !(decide (target ∈ l.module_blacklist))
  | none => !(decide (target ∈ l.module_blacklist))

/-- `Log::enabled` for `Logger` (`src/logger.rs` line 144), exactly as
written: `metadata.level() <= self.max_log_level &&
!self.target_enabled(metadata.target())`. -/
def Logger.enabled (l : Logger) (level : Level) (target : String) : Bool :=
  levelLeFilter level l.max_log_level && !(l.target_enabled target)

/-- A facade `log::Record`: level, target string, optional module path,
optional source file and line, and the formatted message arguments. -/
structure Record where
  level : Level
  target : String
  module_path : Option String
  file : Option String
  line : Option Nat
  args : String

/-- The string `Logger::log` filters on:
`record.module_path().unwrap_or_else(|| record.metadata().target())`. -/
def recordKey (r : Record) : String :=
  r.module_path.getD r.target

/-- Per-call rendering context that the Rust code obtains from the OS:
the formatted `hh:mm:ss` local time, the current thread's id (already
extracted from its `Debug` representation) and optional thread name. -/
structure RenderCtx where
  timeStr : String
  threadId : String
  threadName : Option String

/-- The level tag written by `do_log` (`src/logger.rs` lines 71–95), colour
control elided. -/
def levelTag : Level → String
  | .Error => " [ERROR] "
  | .Warn => " [WARN] "
  | .Info => " [INFO] "
  | .Debug => " [DEBUG] "
  | .Trace => " [TRACE] "

/-- The thread-id / thread-name / module-path segment of `do_log`
(`src/logger.rs` lines 97–125).  On `Debug`/`Trace` the thread id is
written, with the thread name alongside unless it is absent or `"main"`,
then the module path if present, then `": "`.  Otherwise, when
`always_show_module_path` is set, only `module_path ++ ": "` is written
(and nothing when the module path is absent). -/
def threadSegment (level : Level) (alwaysShow : Bool) (threadId : String)
    (threadName : Option String) (modulePath : Option String) : String :=
  if Level.Debug.toNat ≤ level.toNat then
    (match threadName with
     | some name =>
       if name ≠ "main" then "(" ++ threadId ++ ", " ++ name ++ ")"
       else "(" ++ threadId ++ ")"
     | none => "(" ++ threadId ++ ")")
    ++ (match modulePath with
        | some m => " " ++ m
        | none => "")
    ++ ": "
  else if alwaysShow then
    match modulePath with
    | some m => m ++ ": "
    | none => ""
  else ""

/-- The `[file:line]` source-location segment of `do_log`
(`src/logger.rs` lines 127–133), written only on `Trace`. -/
def traceLocation (level : Level) (file : Option String) (line : Option Nat) :
    String :=
  if Level.Trace.toNat ≤ level.toNat then
    match file, line with
    | some f, some n => "[" ++ f ++ ":" ++ Nat.repr n ++ "] "
    | some f, none => "[" ++ f ++ "] "
    | _, _ => ""
  else ""

/-- The full line rendered by `Logger::do_log` (`src/logger.rs` lines
56–139): time, level tag, thread/module segment, trace location, message,
newline. -/
def Logger.doLogRender (l : Logger) (ctx : RenderCtx) (r : Record) : String :=
  ctx.timeStr ++ levelTag r.level
    ++ threadSegment r.level l.always_show_module_path ctx.threadId
        ctx.threadName r.module_path
    ++ traceLocation r.level r.file r.line
    ++ r.args ++ "\n"

/-- What `Logger::log` (`src/logger.rs` lines 147–184) writes: `none` when
the early `target_enabled` return drops the record, otherwise the rendered
line.  The reentrancy/lock dispatch only chooses *where* the line goes and
is modelled separately by `Logger.logStep`. -/
def Logger.logOutput (l : Logger) (ctx : RenderCtx) (r : Record) :
    Option String :=
  if !(l.target_enabled (recordKey r)) then none
  else some (l.doLogRender ctx r)

/-- Spec-side suppression predicate, written from the spec's words: a key is
suppressed when it is an exact, case-sensitive blacklist entry, or when it
contains a `:` and the portion before the first `:` is such an entry. -/
def suppressedSpec (bl : List String) (key : String) : Prop :=
  key ∈ bl ∨ (':' ∈ key.data ∧ (⟨key.data.takeWhile (· ≠ ':')⟩ : String) ∈ bl)

/-- Rust `str::eq_ignore_ascii_case`: equality after ASCII lowercasing
(Lean's `Char.toLower` lowercases exactly the ASCII uppercase letters). -/
def eqIgnoreAsciiCase (a b : String) : Bool :=
  a.data.map Char.toLower == b.data.map Char.toLower

/-- `OutputTargetImpl::new_stderr` (`src/target.rs` lines 75–80): the
explicit stderr stream (colour choice is a property of the stream, elided). -/
def new_stderr : TargetModel := .stderr

/-- `OutputTargetImpl::new_windbg` (`src/target.rs` lines 84–86). -/
def new_windbg : TargetModel := .winDbg

/-- `OutputTargetImpl::new_stderr_or_windbg` (`src/target.rs` lines 66–71):
the dynamic Windows default. -/
def new_stderr_or_windbg : TargetModel := .stderrOrWinDbg

/-- The `File::options()` flags used by `new_file_path`
(`src/target.rs` line 90): `create(true).append(true)`. -/
structure FileOpenOptions where
  create : Bool
  append : Bool
deriving DecidableEq

/-- The open mode `OutputTargetImpl::new_file_path` uses: create-or-append. -/
def new_file_path_options : FileOpenOptions := { create := true, append := true }

/-- `OutputTargetImpl::new_file_path` (`src/target.rs` lines 89–93) with the
filesystem as an oracle: `none` models the `Err` of the failed open. -/
def new_file_path (fileOpens : String → Bool) (path : String) :
    Option TargetModel :=
  if fileOpens path then some (.file path) else none

/-- Result of `OutputTargetImpl::default_from_environment`: the chosen
target plus the number of diagnostic lines `eprintln!`-ed to stderr. -/
structure ResolveResult where
  target : TargetModel
  stderrDiagnostics : Nat
deriving DecidableEq

/-- `OutputTargetImpl::default_from_environment` (`src/target.rs` lines
132–157).  `windows` embeds `#[cfg(windows)]`; `env` is the value of
`NIH_LOG` (`none` when unset, read through `unwrap_or("")`); `fileOpens`
is the filesystem oracle for the attempted file open. -/
def default_from_environment (windows : Bool) (fileOpens : String → Bool)
    (env : Option String) : ResolveResult :=
  let nih_log_env_str := env.getD ""
  if eqIgnoreAsciiCase nih_log_env_str "stderr" then
    { target := new_stderr, stderrDiagnostics := 0 }
  else if windows && eqIgnoreAsciiCase nih_log_env_str "windbg" then
    { target := new_windbg, stderrDiagnostics := 0 }
  else if nih_log_env_str ≠ "" then
    match new_file_path fileOpens nih_log_env_str with
    | some target => { target := target, stderrDiagnostics := 0 }
    | none =>
      -- `Err(err) => eprintln!(...)`, then fall through to the default
      { target := if windows then new_stderr_or_windbg else new_stderr,
        stderrDiagnostics := 1 }
  else
    { target := if windows then new_stderr_or_windbg else new_stderr,
      stderrDiagnostics := 0 }

/-- Spec-side resolver, written from the (amended) spec's ordered rules:
`stderr` → explicit stderr; `windbg` on debugger-capable builds → explicit
debugger; empty/unset → dynamic target; any other non-empty value → file,
falling back to the dynamic target with one stderr diagnostic when the open
fails.  The dynamic target is plain stderr where the debugger channel is
unsupported. -/
def resolveSpec (windows : Bool) (fileOpens : String → Bool)
    (env : Option String) : ResolveResult :=
  let v := env.getD ""
  let dynamic : TargetModel :=
    if windows then .stderrOrWinDbg else .stderr
  if eqIgnoreAsciiCase v "stderr" then { target := .stderr, stderrDiagnostics := 0 }
  else if windows = true ∧ eqIgnoreAsciiCase v "windbg" = true then
    { target := .winDbg, stderrDiagnostics := 0 }
  else if v = "" then { target := dynamic, stderrDiagnostics := 0 }
  else if fileOpens v then { target := .file v, stderrDiagnostics := 0 }
  else { target := dynamic, stderrDiagnostics := 1 }

/-- `std::sync::PoisonError`, which still carries the guarded value. -/
structure PoisonError (α : Type) where
  inner : α

/-- `PoisonError::into_inner`. -/
def PoisonError.into_inner {α : Type} (e : PoisonError α) : α := e.inner

/-- The result of `Mutex::lock`. -/
inductive LockResult (α : Type)
  | ok (t : α)
  | err (e : PoisonError α)

/-- `Mutex::lock` with the poison state explicit: a poisoned mutex yields
`Err` carrying the inner value. -/
def mutexLock {α : Type} (poisoned : Bool) (inner : α) : LockResult α :=
  if poisoned then .err { inner := inner } else .ok inner

/-- The lock handling in `Logger::log` (`src/logger.rs` lines 175–178):
`Ok(target) => target, Err(err) => err.into_inner()` — both outcomes
proceed with the inner target. -/
def logLockTarget {α : Type} (poisoned : Bool) (inner : α) : α :=
  match mutexLock poisoned inner with
  | .ok t => t
  | .err e => e.into_inner

/-- The lock handling in `Logger::flush` (`src/logger.rs` lines 186–193):
`.lock().expect("Mutex poisoned")` — `none` models the panic raised by
`expect` on a poisoned lock. -/
def flushLockTarget {α : Type} (poisoned : Bool) (inner : α) : Option α :=
  match mutexLock poisoned inner with
  | .ok t => some t
  | .err _ => none

/-- The target `Logger::log` writes to after acquiring the shared lock,
given the lock's poison state. -/
def Logger.logAcquiredTarget (l : Logger) (poisoned : Bool) : TargetModel :=
  logLockTarget poisoned l.output_target

/-- `Logger::flush`: `some t` means the flush proceeded on target `t`;
`none` models the `expect` panic on a poisoned lock. -/
def Logger.flushRun (l : Logger) (poisoned : Bool) : Option TargetModel :=
  flushLockTarget poisoned l.output_target

/-- Where a `log` call wrote: the mutex-guarded shared target, or a fresh
target constructed on the reentrant fallback path. -/
inductive WriteDest
  | shared (t : TargetModel)
  | fresh (t : TargetModel)
deriving DecidableEq

/-- The observable effect of one `Logger::log` call. -/
structure LogEffect where
  /-- whether `self.output_target.lock()` was called -/
  acquiredSharedLock : Bool
  /-- destination of the written line, `none` when the record was dropped -/
  dest : Option WriteDest
  /-- value of `IS_REENTRANT_LOGGING_CALL` while `do_log` ran -/
  flagDuringWrite : Option Bool
  /-- value of `IS_REENTRANT_LOGGING_CALL` after the call returns -/
  flagAfter : Bool
  /-- the rendered line, `none` when the record was dropped -/
  output : Option String

/-- `Logger::log` (`src/logger.rs` lines 147–184) as a step on the
thread-local reentrancy flag: the early `target_enabled` return; then, if
`IS_REENTRANT_LOGGING_CALL` is set, a lock-free write to a fresh target from
`default_from_environment`; otherwise set the flag, write under the shared
lock (recovering from poison via `err.into_inner()`), and clear the flag. -/
def Logger.logStep (l : Logger) (ctx : RenderCtx) (r : Record)
    (is_reentrant_logging_call : Bool) (lockPoisoned : Bool)
    (windows : Bool) (fileOpens : String → Bool) (env : Option String) :
    LogEffect :=
  if !(l.target_enabled (recordKey r)) then
    { acquiredSharedLock := false, dest := none, flagDuringWrite := none,
      flagAfter := is_reentrant_logging_call, output := none }
  else if is_reentrant_logging_call then
    { acquiredSharedLock := false,
      dest := some (.fresh (default_from_environment windows fileOpens env).target),
      flagDuringWrite := some true,
      flagAfter := is_reentrant_logging_call,
      output := some (l.doLogRender ctx r) }
  else
    { acquiredSharedLock := true,
      dest := some (.shared (logLockTarget lockPoisoned l.output_target)),
      flagDuringWrite := some true,
      flagAfter := false,
      output := some (l.doLogRender ctx r) }

/-- Boolean leading-match test used to state what a rendered line contains. -/
def prefixMatches : List Char → List Char → Bool
  | [], _ => true
  | _ :: _, [] => false
  | a :: as, b :: bs => a == b && prefixMatches as bs

/-- `strContains hay needle`: does `needle` occur contiguously in `hay`? -/
def strContains (hay needle : List Char) : Bool :=
  prefixMatches needle hay ||
    match hay with
    | [] => false
    | _ :: t => strContains t needle

/-- Spec-side thread/module segment, written from the amended spec wording:
the parenthesised thread identifier appears exactly on `Debug`/`Trace`, with
the thread name alongside only when it is set and differs from `"main"`,
followed by the module path when present and a `": "` terminator; below
`Debug` with `always_show_module_path` set, only the module path with a
`": "` terminator (and nothing at all without a module path); otherwise
nothing. -/
def threadSegmentSpec (level : Level) (alwaysShow : Bool) (threadId : String)
    (threadName : Option String) (modulePath : Option String) : String :=
  if level = .Debug ∨ level = .Trace then
    "(" ++ threadId
      ++ (match threadName with
          | some n => if n = "main" then "" else ", " ++ n
          | none => "")
      ++ ")"
      ++ (modulePath.elim "" (fun m => " " ++ m))
      ++ ": "
  else if alwaysShow then modulePath.elim "" (fun m => m ++ ": ")
  else ""

/-- The `LoggerBuilder` struct from `src/builder.rs` (lines 15–28); the
`HashSet<String>` blacklist keeps its set semantics through
`hashSetInsert`. -/
structure LoggerBuilder where
  max_log_level : LevelFilter
  always_show_module_path : Bool
  output_target : Option TargetModel
  module_blacklist : List String
deriving DecidableEq

/-- `HashSet::insert` on the list embedding of the blacklist: inserting an
element already present leaves the set unchanged. -/
def hashSetInsert (s : String) (l : List String) : List String :=
  if s ∈ l then l else l ++ [s]

/-- `LoggerBuilder::filter_crate` (`src/builder.rs` lines 152–155). -/
def LoggerBuilder.filter_crate (b : LoggerBuilder) (crate_name : String) :
    LoggerBuilder :=
  { b with module_blacklist := hashSetInsert crate_name b.module_blacklist }

/-- `LoggerBuilder::filter_module` (`src/builder.rs` lines 159–164). -/
def LoggerBuilder.filter_module (b : LoggerBuilder) (crate_name : String) :
    LoggerBuilder :=
  { b with module_blacklist := hashSetInsert crate_name b.module_blacklist }

/-- `std::str::Utf8Error`: the length of the valid prefix and, for an
invalid (rather than merely incomplete) sequence, the length of the
offending byte sequence. -/
structure Utf8Error where
  valid_up_to : Nat
  error_len : Option Nat
deriving DecidableEq

/-- A Unicode scalar value: below `0x110000` and not a surrogate. -/
def ValidScalar (v : Nat) : Prop :=
  v < 0x110000 ∧ ¬(0xD800 ≤ v ∧ v ≤ 0xDFFF)

/-- UTF-8 decoding of a byte list into Unicode scalar values, modelling
`std::str::from_utf8` (an external library call made by
`WinDbgWriter::flush`): strict range checks on continuation bytes rule out
overlong forms, surrogates (via the `0xED` bound) and values above
`0x10FFFF` (via the `0xF4` bound); errors carry `valid_up_to` (= `i`, the
index of the first bad byte) and `error_len` (`none` when the input ends
mid-sequence). -/
def utf8DecodeGo : Nat → List Nat → Except Utf8Error (List Nat)
  | _, [] => .ok []
  | i, b :: rest =>
    if b < 0x80 then
      (utf8DecodeGo (i + 1) rest).map (fun vs => b :: vs)
    else if 0xC2 ≤ b ∧ b ≤ 0xDF then
      match rest with
      | [] => .error { valid_up_to := i, error_len := none }
      | c1 :: rest1 =>
        if 0x80 ≤ c1 ∧ c1 ≤ 0xBF then
          (utf8DecodeGo (i + 2) rest1).map
            (fun vs => ((b - 0xC0) * 0x40 + (c1 - 0x80)) :: vs)
        else .error { valid_up_to := i, error_len := some 1 }
    else if 0xE0 ≤ b ∧ b ≤ 0xEF then
      match rest with
      | [] => .error { valid_up_to := i, error_len := none }
      | c1 :: rest1 =>
        if (if b = 0xE0 then 0xA0 else 0x80) ≤ c1
            ∧ c1 ≤ (if b = 0xED then 0x9F else 0xBF) then
          match rest1 with
          | [] => .error { valid_up_to := i, error_len := none }
          | c2 :: rest2 =>
            if 0x80 ≤ c2 ∧ c2 ≤ 0xBF then
              (utf8DecodeGo (i + 3) rest2).map
                (fun vs =>
                  ((b - 0xE0) * 0x1000 + (c1 - 0x80) * 0x40 + (c2 - 0x80)) :: vs)
            else .error { valid_up_to := i, error_len := some 2 }
        else .error { valid_up_to := i, error_len := some 1 }
    else if 0xF0 ≤ b ∧ b ≤ 0xF4 then
      match rest with
      | [] => .error { valid_up_to := i, error_len := none }
      | c1 :: rest1 =>
        if (if b = 0xF0 then 0x90 else 0x80) ≤ c1
            ∧ c1 ≤ (if b = 0xF4 then 0x8F else 0xBF) then
          match rest1 with
          | [] => .error { valid_up_to := i, error_len := none }
          | c2 :: rest2 =>
            if 0x80 ≤ c2 ∧ c2 ≤ 0xBF then
              match rest2 with
              | [] => .error { valid_up_to := i, error_len := none }
              | c3 :: rest3 =>
                if 0x80 ≤ c3 ∧ c3 ≤ 0xBF then
                  (utf8DecodeGo (i + 4) rest3).map
                    (fun vs =>
                      ((b - 0xF0) * 0x40000 + (c1 - 0x80) * 0x1000
                        + (c2 - 0x80) * 0x40 + (c3 - 0x80)) :: vs)
                else .error { valid_up_to := i, error_len := some 3 }
            else .error { valid_up_to := i, error_len := some 2 }
        else .error { valid_up_to := i, error_len := some 1 }
    else .error { valid_up_to := i, error_len := some 1 }

/-- `std::str::from_utf8` on the buffered bytes. -/
def utf8Decode (bs : List Nat) : Except Utf8Error (List Nat) :=
  utf8DecodeGo 0 bs

/-- UTF-16 encoding of one scalar value, modelling `str::encode_utf16`:
scalars below `0x10000` are one unit, the rest a surrogate pair. -/
def utf16EncodeScalar (v : Nat) : List Nat :=
  if v < 0x10000 then [v]
  else
    [0xD800 + (v - 0x10000) / 0x400, 0xDC00 + (v - 0x10000) % 0x400]

/-- `str::encode_utf16` over a scalar sequence. -/
def utf16Encode : List Nat → List Nat
  | [] => []
  | v :: vs => utf16EncodeScalar v ++ utf16Encode vs

/-- UTF-16 decoding, used to state that the emitted buffer decodes back to
the original text. -/
def utf16Decode : List Nat → Option (List Nat)
  | [] => some []
  | u :: rest =>
    if u < 0xD800 ∨ 0xE000 ≤ u then
      (utf16Decode rest).map (fun vs => u :: vs)
    else if u < 0xDC00 then
      match rest with
      | [] => none
      | l :: rest1 =>
        if 0xDC00 ≤ l ∧ l < 0xE000 then
          (utf16Decode rest1).map
            (fun vs => (0x10000 + (u - 0xD800) * 0x400 + (l - 0xDC00)) :: vs)
        else none
    else none

/-- `Display` of `std::str::Utf8Error`, as formatted into the diagnostic by
`format!` in `WinDbgWriter::flush`. -/
def utf8ErrorDisplay (e : Utf8Error) : String :=
  match e.error_len with
  | some n =>
    "invalid utf-8 sequence of " ++ Nat.repr n ++ " bytes from index "
      ++ Nat.repr e.valid_up_to
  | none =>
    "incomplete utf-8 byte sequence from index " ++ Nat.repr e.valid_up_to

/-- The literal diagnostic `WinDbgWriter::flush` substitutes for a buffer
that fails UTF-8 decoding (`src/target/windbg.rs` line 76). -/
def windbgDecodeErrorMessage (e : Utf8Error) : String :=
  "ERROR: Invalid UTF-8 in input: " ++ utf8ErrorDisplay e

/-- Scalar values of a Lean string, for transcoding the diagnostic. -/
def strToScalars (s : String) : List Nat :=
  s.data.map Char.toNat

/-- The `WinDbgWriter` state (`src/target/windbg.rs` lines 18–26): the
unwritten UTF-8 byte buffer and the UTF-16 conversion buffer. -/
structure WinDbgWriter where
  buffer : List Nat
  utf16_buffer : List Nat
deriving DecidableEq

/-- Outcome of one `WinDbgWriter::flush`: the new state, the UTF-16 buffer
passed to `OutputDebugStringW` (`none` on the empty-buffer no-op), and
whether an `io::Error` was returned (this flush has no error path). -/
structure FlushOutcome where
  state : WinDbgWriter
  emitted : Option (List Nat)
  ioError : Bool
deriving DecidableEq

/-- `WinDbgWriter::flush` (`src/target/windbg.rs` lines 63–85): no-op on an
empty buffer; otherwise clear the UTF-16 buffer, transcode the bytes (or
the decode-error diagnostic) into it, clear the byte buffer, append the
null terminator and emit. -/
def WinDbgWriter.flush (w : WinDbgWriter) : FlushOutcome :=
  if w.buffer = [] then { state := w, emitted := none, ioError := false }
  else
    let utf16_cleared : List Nat := []
    let content :=
      match utf8Decode w.buffer with
      | .ok buffer_str => utf16_cleared ++ utf16Encode buffer_str
      | .error err =>
        utf16_cleared ++ utf16Encode (strToScalars (windbgDecodeErrorMessage err))
    let final := content ++ [0]
    { state := { buffer := [], utf16_buffer := final },
      emitted := some final, ioError := false }

/-- Helper for `slice::split_inclusive`: fragments end just after each
element satisfying `p`; a trailing fragment without such an element is kept,
and an empty input yields no fragments. -/
def splitInclusiveAux (p : Nat → Bool) : List Nat → List Nat → List (List Nat)
  | acc, [] => if acc = [] then [] else [acc.reverse]
  | acc, x :: xs =>
    if p x then (acc.reverse ++ [x]) :: splitInclusiveAux p [] xs
    else splitInclusiveAux p (x :: acc) xs

/-- `slice::split_inclusive(p)`. -/
def splitInclusive (p : Nat → Bool) (l : List Nat) : List (List Nat) :=
  splitInclusiveAux p [] l

/-- `WinDbgWriter::write` (`src/target/windbg.rs` lines 46–61): append each
line-feed-inclusive fragment to the buffer and flush whenever a fragment
ends in a line feed; returns the final state and the emitted UTF-16
buffers in order. -/
def WinDbgWriter.write (w : WinDbgWriter) (buf : List Nat) :
    WinDbgWriter × List (List Nat) :=
  (splitInclusive (fun c => c == 10) buf).foldl
    (fun acc line =>
      let w1 : WinDbgWriter := { acc.1 with buffer := acc.1.buffer ++ line }
      if line.getLast? = some 10 then
        let f := w1.flush
        (f.state, acc.2 ++ f.emitted.toList)
      else (w1, acc.2))
    (w, [])

end NihLog

namespace NihLog

theorem splitOnceAux_eq_none_iff (c : Char) (cs : List Char) :
    splitOnceAux c cs = none ↔ c ∉ cs := by
  induction cs with
  | nil => simp [splitOnceAux]
  | cons x xs ih =>
    by_cases h : x = c
    · subst h; simp [splitOnceAux]
    · simp only [splitOnceAux, if_neg h, Option.map_eq_none', ih,
        List.mem_cons]
      constructor
      · intro hn hc
        rcases hc with hc | hc
        · exact h hc.symm
        · exact hn hc
      · intro hn hc
        exact hn (Or.inr hc)

theorem splitOnceAux_eq_some_of_mem (c : Char) (cs : List Char)
    (h : c ∈ cs) :
    splitOnceAux c cs
      = some (cs.takeWhile (· ≠ c), (cs.dropWhile (· ≠ c)).tail) := by
  induction cs with
  | nil => cases h
  | cons x xs ih =>
    by_cases hx : x = c
    · subst hx
      simp [splitOnceAux, List.takeWhile, List.dropWhile]
    · have hmem : c ∈ xs := by
        rcases List.mem_cons.mp h with hc | hc
        · exact absurd hc.symm hx
        · exact hc
      simp [splitOnceAux, hx, ih hmem, List.takeWhile, List.dropWhile]

/-- `target_enabled` returns `false` exactly on the keys described by
`suppressedSpec`. -/
theorem target_enabled_false_iff (l : Logger) (key : String) :
    l.target_enabled key = false ↔ suppressedSpec l.module_blacklist key := by
  unfold Logger.target_enabled suppressedSpec splitOnce
  by_cases hc : ':' ∈ key.data
  · rw [splitOnceAux_eq_some_of_mem ':' key.data hc]
    show (if (⟨key.data.takeWhile (· ≠ ':')⟩ : String) ∈ l.module_blacklist
          then false
          else !(decide (key ∈ l.module_blacklist))) = false
        ↔ key ∈ l.module_blacklist
          ∨ (':' ∈ key.data
             ∧ (⟨key.data.takeWhile (· ≠ ':')⟩ : String) ∈ l.module_blacklist)
    by_cases hb :
        (⟨key.data.takeWhile (· ≠ ':')⟩ : String) ∈ l.module_blacklist
    · rw [if_pos hb]
      exact ⟨fun _ => Or.inr ⟨hc, hb⟩, fun _ => rfl⟩
    · rw [if_neg hb]
      by_cases hk : key ∈ l.module_blacklist
      · simp [hk]
      · simp [hk]
        intro _
        simpa using hb
  · rw [(splitOnceAux_eq_none_iff ':' key.data).mpr hc]
    by_cases hk : key ∈ l.module_blacklist <;> simp [hc, hk]

/-- C1: the spec says `enabled(L, T)` is true iff `L` is at most the
configured maximum level filter and `T` is not suppressed by the blacklist.
The code (`src/logger.rs` line 144) negates the wrong side: with an empty
blacklist and `max_log_level = Info`, `enabled(Info, "mycrate")` evaluates
to `false` even though the level passes and the target is not suppressed —
`enabled` as written is true only for *blacklisted* targets, contradicting
`target_enabled`'s documented meaning and `log`'s own use of it. -/
theorem c1_enabled_negates_target_filter :
    ({ max_log_level := .Info, always_show_module_path := false,
       output_target := .stderr, module_blacklist := [] } : Logger).enabled
        .Info "mycrate" = false
    ∧ ({ max_log_level := .Info, always_show_module_path := false,
         output_target := .stderr, module_blacklist := [] } : Logger).target_enabled
        "mycrate" = true
    ∧ levelLeFilter .Info .Info = true := by
  decide

/-- C2 counterexample: a `Trace` record against a logger whose maximum level
filter is `Error` (so the record is more verbose than allowed) is *not*
dropped by `log` — it still produces output, because `log` never rechecks
the level. -/
theorem c2_counterexample_verbose_record_logged :
    LevelFilter.Error.toNat < Level.Trace.toNat
    ∧ (({ max_log_level := .Error, always_show_module_path := false,
          output_target := .stderr, module_blacklist := [] } : Logger).logOutput
        { timeStr := "12:00:00", threadId := "1", threadName := none }
        { level := .Trace, target := "app", module_path := none,
          file := none, line := none, args := "hello" }).isSome = true := by
  decide

/-- C2 (amended): `log` performs no level filtering of its own.  Even for a
record strictly more verbose than the configured maximum level filter, the
record produces output exactly when the module/target blacklist check
passes; level filtering is left to the facade's global maximum level and to
`enabled`. -/
theorem c2_log_applies_no_level_filter (l : Logger) (ctx : RenderCtx)
    (r : Record) (_h : l.max_log_level.toNat < r.level.toNat) :
    (l.logOutput ctx r).isSome = l.target_enabled (recordKey r) := by
  unfold Logger.logOutput
  by_cases hte : l.target_enabled (recordKey r) <;> simp [hte]

theorem c2_log_applies_no_level_filter_witness :
    LevelFilter.Error.toNat < Level.Trace.toNat
    ∧ (({ max_log_level := .Error, always_show_module_path := false,
          output_target := .stderr, module_blacklist := [] } : Logger).logOutput
        { timeStr := "12:00:00", threadId := "1", threadName := none }
        { level := .Trace, target := "app", module_path := none,
          file := none, line := none, args := "hi" }).isSome
      = ({ max_log_level := .Error, always_show_module_path := false,
           output_target := .stderr, module_blacklist := [] } : Logger).target_enabled
          (recordKey
            { level := .Trace, target := "app", module_path := none,
              file := none, line := none, args := "hi" }) :=
  ⟨by decide, c2_log_applies_no_level_filter _ _ _ (by decide)⟩

/-- C3: `log(record)` produces no output exactly when the record's module
path (or, lacking one, its target string) is an exact, case-sensitive match
of a blacklist entry, or the portion of that string before the first `:` is
such a match.  Exactness is by string equality, so names differing in case
or matching only a substring or prefix of an entry are not suppressed. -/
theorem c3_log_drops_iff_blacklisted (l : Logger) (ctx : RenderCtx)
    (r : Record) :
    l.logOutput ctx r = none ↔ suppressedSpec l.module_blacklist (recordKey r) := by
  rw [← target_enabled_false_iff]
  unfold Logger.logOutput
  by_cases h : l.target_enabled (recordKey r) <;> simp [h]

/-- C4: for a record that passes the blacklist filter, a `log` call made
while the thread-local `IS_REENTRANT_LOGGING_CALL` flag is set never
acquires the shared output-target lock and writes to a fresh target
resolved from the environment by `default_from_environment`; a call made
with the flag clear sets the flag for the duration of the locked write,
writes to the shared target under the lock, and clears the flag
afterwards. -/
theorem c4_reentrant_log_bypasses_lock (l : Logger) (ctx : RenderCtx)
    (r : Record) (flag lockPoisoned windows : Bool)
    (fileOpens : String → Bool) (env : Option String)
    (h : l.target_enabled (recordKey r) = true) :
    (flag = true →
      (l.logStep ctx r flag lockPoisoned windows fileOpens env).acquiredSharedLock
          = false
      ∧ (l.logStep ctx r flag lockPoisoned windows fileOpens env).dest
          = some (.fresh (default_from_environment windows fileOpens env).target))
    ∧ (flag = false →
      (l.logStep ctx r flag lockPoisoned windows fileOpens env).acquiredSharedLock
          = true
      ∧ (l.logStep ctx r flag lockPoisoned windows fileOpens env).flagDuringWrite
          = some true
      ∧ (l.logStep ctx r flag lockPoisoned windows fileOpens env).flagAfter
          = false
      ∧ (l.logStep ctx r flag lockPoisoned windows fileOpens env).dest
          = some (.shared (logLockTarget lockPoisoned l.output_target))) := by
  unfold Logger.logStep
  cases flag <;> simp [h]

theorem c4_reentrant_log_bypasses_lock_witness :
    ({ max_log_level := .Trace, always_show_module_path := false,
       output_target := .stderr, module_blacklist := [] } : Logger).target_enabled
        (recordKey
          { level := .Info, target := "app", module_path := none,
            file := none, line := none, args := "hi" }) = true
    ∧ ((true = true →
        (({ max_log_level := .Trace, always_show_module_path := false,
            output_target := .stderr, module_blacklist := [] } : Logger).logStep
            { timeStr := "12:00:00", threadId := "1", threadName := none }
            { level := .Info, target := "app", module_path := none,
              file := none, line := none, args := "hi" }
            true false false (fun _ => false) none).acquiredSharedLock = false
        ∧ (({ max_log_level := .Trace, always_show_module_path := false,
              output_target := .stderr, module_blacklist := [] } : Logger).logStep
            { timeStr := "12:00:00", threadId := "1", threadName := none }
            { level := .Info, target := "app", module_path := none,
              file := none, line := none, args := "hi" }
            true false false (fun _ => false) none).dest
            = some (.fresh (default_from_environment false (fun _ => false) none).target))
      ∧ (true = false →
        (({ max_log_level := .Trace, always_show_module_path := false,
            output_target := .stderr, module_blacklist := [] } : Logger).logStep
            { timeStr := "12:00:00", threadId := "1", threadName := none }
            { level := .Info, target := "app", module_path := none,
              file := none, line := none, args := "hi" }
            true false false (fun _ => false) none).acquiredSharedLock = true
        ∧ (({ max_log_level := .Trace, always_show_module_path := false,
              output_target := .stderr, module_blacklist := [] } : Logger).logStep
            { timeStr := "12:00:00", threadId := "1", threadName := none }
            { level := .Info, target := "app", module_path := none,
              file := none, line := none, args := "hi" }
            true false false (fun _ => false) none).flagDuringWrite = some true
        ∧ (({ max_log_level := .Trace, always_show_module_path := false,
              output_target := .stderr, module_blacklist := [] } : Logger).logStep
            { timeStr := "12:00:00", threadId := "1", threadName := none }
            { level := .Info, target := "app", module_path := none,
              file := none, line := none, args := "hi" }
            true false false (fun _ => false) none).flagAfter = false
        ∧ (({ max_log_level := .Trace, always_show_module_path := false,
              output_target := .stderr, module_blacklist := [] } : Logger).logStep
            { timeStr := "12:00:00", threadId := "1", threadName := none }
            { level := .Info, target := "app", module_path := none,
              file := none, line := none, args := "hi" }
            true false false (fun _ => false) none).dest
            = some (.shared (logLockTarget false TargetModel.stderr)))) :=
  ⟨by decide,
   c4_reentrant_log_bypasses_lock _ _ _ true false false (fun _ => false) none
     (by decide)⟩

/-- C5 counterexample: when the shared lock is poisoned, `flush` does not
take ownership of the poisoned value and proceed — its
`.expect("Mutex poisoned")` panics, modelled as `none`. -/
theorem c5_counterexample_flush_panics_on_poison :
    ({ max_log_level := .Info, always_show_module_path := false,
       output_target := .stderr, module_blacklist := [] } : Logger).flushRun true
      = none := by
  rfl

/-- C5 (amended): `log` treats a poisoned lock as recoverable — its lock
acquisition always yields the shared target, via `err.into_inner()` on the
poisoned branch — while `flush` proceeds only on an unpoisoned lock and
panics on a poisoned one. -/
theorem c5_log_recovers_poison_flush_panics (l : Logger) (poisoned : Bool) :
    l.logAcquiredTarget poisoned = l.output_target
    ∧ l.flushRun poisoned
        = (if poisoned then none else some l.output_target) := by
  cases poisoned <;> exact ⟨rfl, rfl⟩

/-- C6 counterexample: at level `Info` with `always_show_module_path` set,
the rendered line contains no thread identifier at all — only the module
path segment `"app::dsp: "` is written, although the claim requires the
thread identifier whenever `always_show_module_path` is set. -/
theorem c6_counterexample_no_thread_id_on_always_show :
    ({ max_log_level := .Trace, always_show_module_path := true,
       output_target := .stderr, module_blacklist := [] } : Logger).doLogRender
      { timeStr := "12:00:00", threadId := "17", threadName := none }
      { level := .Info, target := "app", module_path := some "app::dsp",
        file := none, line := none, args := "hello" }
      = "12:00:00 [INFO] app::dsp: hello\n"
    ∧ strContains ("12:00:00 [INFO] app::dsp: hello\n").data ("17").data
      = false := by
  decide

/-- C6 (amended): the thread/module segment rendered by `do_log` equals the
spec-side description: the parenthesised thread identifier appears exactly
when the level is `Debug` or `Trace`, with the thread name alongside only
when it is set and differs from the default main-thread name `"main"`,
followed by the module path when present, and terminated by `": "`; below
`Debug`, when `always_show_module_path` is set, only the module path with a
`": "` terminator is written (nothing without a module path); otherwise the
segment is empty. -/
theorem c6_thread_segment_matches_spec (level : Level) (alwaysShow : Bool)
    (tid : String) (tname : Option String) (mp : Option String) :
    threadSegment level alwaysShow tid tname mp
      = threadSegmentSpec level alwaysShow tid tname mp := by
  apply String.ext
  cases level <;> cases tname <;> cases mp <;>
    simp [threadSegment, threadSegmentSpec, Level.toNat, String.data_append] <;>
    split_ifs <;>
    simp_all [String.data_append]

/-- C7 counterexample: on a debugger-capable (Windows) build with
`NIH_LOG=windbg` and a filesystem on which every open succeeds, resolution
yields the explicit debugger target with no diagnostics — not a file target
opened on the path `"windbg"`, as the claim's "any other non-empty value"
rule would require. -/
theorem c7_counterexample_windbg_value :
    (default_from_environment true (fun _ => true) (some "windbg")).target
      = .winDbg
    ∧ TargetModel.winDbg ≠ .file "windbg" := by
  decide

/-- C7 (amended): `default_from_environment` follows the ordered rules of
the spec-side `resolveSpec`: `NIH_LOG` case-insensitively `"stderr"` →
explicit stderr; on debugger-capable builds case-insensitively `"windbg"`
→ explicit debugger; empty or unset → dynamic target; any other non-empty
value → file target on that path (opened create-or-append), falling back
to the dynamic target (plain stderr where the debugger channel is
unsupported) with exactly one stderr diagnostic when the open fails. -/
theorem c7_default_from_environment_matches_spec (windows : Bool)
    (fileOpens : String → Bool) (env : Option String) :
    default_from_environment windows fileOpens env
        = resolveSpec windows fileOpens env
    ∧ new_file_path_options = { create := true, append := true } := by
  refine ⟨?_, rfl⟩
  unfold default_from_environment resolveSpec new_file_path new_stderr
    new_windbg new_stderr_or_windbg
  split_ifs <;> simp_all <;>
    by_cases hf : fileOpens (env.getD "") = true <;> simp [hf]

theorem except_map_eq_ok {ε α β : Type} (f : α → β) (x : Except ε α) (b : β) :
    x.map f = .ok b ↔ ∃ a, x = .ok a ∧ f a = b := by
  cases x <;> simp [Except.map]

theorem utf8DecodeGo_cons1 (i b : Nat) (rest : List Nat) (hb : b < 128) :
    utf8DecodeGo i (b :: rest)
      = (utf8DecodeGo (i + 1) rest).map (fun vs => b :: vs) := by
  rw [utf8DecodeGo.eq_def]
  exact if_pos hb

theorem utf8DecodeGo_cons2 (i b c1 : Nat) (rest1 : List Nat)
    (hb1 : ¬ b < 128) (hb2 : 194 ≤ b ∧ b ≤ 223)
    (hc1 : 128 ≤ c1 ∧ c1 ≤ 191) :
    utf8DecodeGo i (b :: c1 :: rest1)
      = (utf8DecodeGo (i + 2) rest1).map
          (fun vs => ((b - 192) * 64 + (c1 - 128)) :: vs) := by
  rw [utf8DecodeGo.eq_def]
  simp only []
  rw [if_neg hb1, if_pos hb2, if_pos hc1]

theorem utf8DecodeGo_cons3 (i b c1 c2 : Nat) (rest2 : List Nat)
    (hb1 : ¬ b < 128) (hb2 : ¬(194 ≤ b ∧ b ≤ 223))
    (hb3 : 224 ≤ b ∧ b ≤ 239)
    (hc1 : (if b = 224 then 160 else 128) ≤ c1
            ∧ c1 ≤ (if b = 237 then 159 else 191))
    (hc2 : 128 ≤ c2 ∧ c2 ≤ 191) :
    utf8DecodeGo i (b :: c1 :: c2 :: rest2)
      = (utf8DecodeGo (i + 3) rest2).map
          (fun vs => ((b - 224) * 4096 + (c1 - 128) * 64 + (c2 - 128)) :: vs) := by
  rw [utf8DecodeGo.eq_def]
  simp only []
  rw [if_neg hb1, if_neg hb2, if_pos hb3, if_pos hc1, if_pos hc2]

theorem utf8DecodeGo_cons4 (i b c1 c2 c3 : Nat) (rest3 : List Nat)
    (hb1 : ¬ b < 128) (hb2 : ¬(194 ≤ b ∧ b ≤ 223))
    (hb3 : ¬(224 ≤ b ∧ b ≤ 239)) (hb4 : 240 ≤ b ∧ b ≤ 244)
    (hc1 : (if b = 240 then 144 else 128) ≤ c1
            ∧ c1 ≤ (if b = 244 then 143 else 191))
    (hc2 : 128 ≤ c2 ∧ c2 ≤ 191) (hc3 : 128 ≤ c3 ∧ c3 ≤ 191) :
    utf8DecodeGo i (b :: c1 :: c2 :: c3 :: rest3)
      = (utf8DecodeGo (i + 4) rest3).map
          (fun vs => ((b - 240) * 262144 + (c1 - 128) * 4096
              + (c2 - 128) * 64 + (c3 - 128)) :: vs) := by
  rw [utf8DecodeGo.eq_def]
  simp only []
  rw [if_neg hb1, if_neg hb2, if_neg hb3, if_pos hb4, if_pos hc1, if_pos hc2,
    if_pos hc3]

set_option maxHeartbeats 1000000 in
set_option maxRecDepth 8000 in
/-- Every scalar produced by a successful UTF-8 decode is a valid Unicode
scalar value: the continuation-byte ranges rule out surrogates and values
above `0x10FFFF`. -/
theorem utf8DecodeGo_ok_valid (i : Nat) (bs : List Nat) :
    ∀ vs, utf8DecodeGo i bs = .ok vs → ∀ v ∈ vs, ValidScalar v := by
  induction i, bs using utf8DecodeGo.induct
  case case2 i b rest hb ih =>
    intro vs h
    rw [utf8DecodeGo_cons1 i b rest hb] at h
    rcases (except_map_eq_ok _ _ _).mp h with ⟨a, hgo, rfl⟩
    intro v hv
    rcases List.mem_cons.mp hv with rfl | hmem
    · exact ⟨by omega, by omega⟩
    · exact ih a hgo v hmem
  case case4 i b hb1 hb2 c1 rest1 hc1 ih =>
    intro vs h
    rw [utf8DecodeGo_cons2 i b c1 rest1 hb1 hb2 hc1] at h
    rcases (except_map_eq_ok _ _ _).mp h with ⟨a, hgo, rfl⟩
    intro v hv
    rcases List.mem_cons.mp hv with rfl | hmem
    · exact ⟨by omega, by omega⟩
    · exact ih a hgo v hmem
  case case8 i b hb1 hb2 hb3 c1 hc1 c2 rest1 hc2 ih =>
    intro vs h
    rw [utf8DecodeGo_cons3 i b c1 c2 rest1 hb1 hb2 hb3 hc1 hc2] at h
    rcases (except_map_eq_ok _ _ _).mp h with ⟨a, hgo, rfl⟩
    intro v hv
    rcases List.mem_cons.mp hv with rfl | hmem
    · refine ⟨?_, ?_⟩ <;> (split_ifs at hc1 <;> omega)
    · exact ih a hgo v hmem
  case case14 i b hb1 hb2 hb3 hb4 c1 hc1 c2 hc2 c3 rest1 hc3 ih =>
    intro vs h
    rw [utf8DecodeGo_cons4 i b c1 c2 c3 rest1 hb1 hb2 hb3 hb4 hc1 hc2 hc3] at h
    rcases (except_map_eq_ok _ _ _).mp h with ⟨a, hgo, rfl⟩
    intro v hv
    rcases List.mem_cons.mp hv with rfl | hmem
    · refine ⟨?_, ?_⟩ <;> (split_ifs at hc1 <;> omega)
    · exact ih a hgo v hmem
  all_goals
    intro vs h
    rw [utf8DecodeGo.eq_def] at h
    simp only [] at h
    (try split_ifs at h) <;> simp_all

theorem utf16Decode_single (u : Nat) (t : List Nat)
    (h : u < 55296 ∨ 57344 ≤ u) :
    utf16Decode (u :: t) = (utf16Decode t).map (fun vs => u :: vs) := by
  rw [utf16Decode.eq_def]
  exact if_pos h

theorem utf16Decode_pair (u l : Nat) (t : List Nat)
    (h1 : ¬(u < 55296 ∨ 57344 ≤ u)) (h2 : u < 56320)
    (h3 : 56320 ≤ l ∧ l < 57344) :
    utf16Decode (u :: l :: t)
      = (utf16Decode t).map
          (fun vs => (65536 + (u - 55296) * 1024 + (l - 56320)) :: vs) := by
  rw [utf16Decode.eq_def]
  simp only []
  rw [if_neg h1, if_pos h2, if_pos h3]

/-- UTF-16 transcoding is lossless on sequences of valid scalar values. -/
theorem utf16Decode_encode (s : List Nat) (h : ∀ v ∈ s, ValidScalar v) :
    utf16Decode (utf16Encode s) = some s := by
  induction s with
  | nil => rfl
  | cons v vs ih =>
    have hv := h v (List.mem_cons_self _ _)
    have hrest : ∀ x ∈ vs, ValidScalar x :=
      fun x hx => h x (List.mem_cons_of_mem _ hx)
    obtain ⟨hv1, hv2⟩ := hv
    by_cases hbmp : v < 65536
    · have henc : utf16Encode (v :: vs) = v :: utf16Encode vs := by
        simp [utf16Encode, utf16EncodeScalar, hbmp]
      rw [henc, utf16Decode_single v _ (by omega), ih hrest]
      rfl
    · have henc : utf16Encode (v :: vs)
          = (55296 + (v - 65536) / 1024)
            :: (56320 + (v - 65536) % 1024) :: utf16Encode vs := by
        simp [utf16Encode, utf16EncodeScalar, hbmp]
      rw [henc, utf16Decode_pair _ _ _ (by omega) (by omega) (by omega),
        ih hrest]
      simp only [Option.map_some', Option.some.injEq, List.cons.injEq]
      exact ⟨by omega, trivial⟩

theorem splitInclusiveAux_no_match (p : Nat → Bool) (bs : List Nat)
    (h : ∀ x ∈ bs, p x = false) :
    ∀ acc : List Nat, acc.reverse ++ bs ≠ [] →
      splitInclusiveAux p acc bs = [acc.reverse ++ bs] := by
  induction bs with
  | nil =>
    intro acc hne
    have : acc ≠ [] := by
      intro hc
      exact hne (by simp [hc])
    simp [splitInclusiveAux, this]
  | cons x xs ih =>
    intro acc hne
    have hx : p x = false := h x (List.mem_cons_self _ _)
    have hxs : ∀ y ∈ xs, p y = false :=
      fun y hy => h y (List.mem_cons_of_mem _ hy)
    have := ih hxs (x :: acc) (by simp)
    simp only [splitInclusiveAux, hx, Bool.false_eq_true, if_false, this]
    simp

theorem splitInclusive_no_match (p : Nat → Bool) (bs : List Nat)
    (h : ∀ x ∈ bs, p x = false) (hne : bs ≠ []) :
    splitInclusive p bs = [bs] := by
  have := splitInclusiveAux_no_match p bs h [] (by simpa using hne)
  simpa [splitInclusive] using this

/-- Writing bytes that contain no line feed appends them to the byte buffer
without any flush. -/
theorem write_no_newline (w : WinDbgWriter) (bs : List Nat)
    (h10 : (10 : Nat) ∉ bs) (hne : bs ≠ []) :
    w.write bs = ({ w with buffer := w.buffer ++ bs }, []) := by
  unfold WinDbgWriter.write
  rw [splitInclusive_no_match _ bs
    (fun x hx => by
      have : x ≠ 10 := fun hc => h10 (hc ▸ hx)
      simp [this]) hne]
  have hlast : bs.getLast? ≠ some 10 := by
    intro hc
    obtain ⟨hh, heq⟩ :=
      List.mem_getLast?_eq_getLast (l := bs) (x := 10) (Option.mem_def.mpr hc)
    exact h10 (heq ▸ List.getLast_mem hh)
  simp [List.foldl, hlast]

/-- C8 counterexample: the UTF-16 scratch buffer is *not* cleared after
emission — flushing the single byte `A` emits `[65, 0]` and leaves exactly
that content in `utf16_buffer` when `flush` returns (it is only cleared at
the start of the next flush). -/
theorem c8_counterexample_utf16_buffer_not_cleared :
    (WinDbgWriter.flush { buffer := [65], utf16_buffer := [] }).emitted
      = some [65, 0]
    ∧ (WinDbgWriter.flush { buffer := [65], utf16_buffer := [] }).state.utf16_buffer
      = [65, 0]
    ∧ ([65, 0] : List Nat) ≠ [] := by
  decide

/-- C8 (amended): writing a non-empty, line-feed-free, valid UTF-8 byte
sequence buffers it without emission, and the subsequent flush emits a
null-terminated UTF-16 buffer that decodes back to the original text (the
transcoding round-trip is lossless) and returns success; the byte buffer is
cleared, while the UTF-16 scratch buffer still holds the emitted
null-terminated content when `flush` returns, being cleared only at the
start of the next emission. -/
theorem c8_write_flush_utf16_roundtrip (bs s : List Nat) (hne : bs ≠ [])
    (h10 : (10 : Nat) ∉ bs) (hdec : utf8Decode bs = .ok s) :
    (WinDbgWriter.write { buffer := [], utf16_buffer := [] } bs).2 = []
    ∧ (WinDbgWriter.write { buffer := [], utf16_buffer := [] } bs).1.buffer = bs
    ∧ ((WinDbgWriter.write { buffer := [], utf16_buffer := [] } bs).1.flush).emitted
        = some (utf16Encode s ++ [0])
    ∧ ((WinDbgWriter.write { buffer := [], utf16_buffer := [] } bs).1.flush).state.buffer
        = []
    ∧ ((WinDbgWriter.write { buffer := [], utf16_buffer := [] } bs).1.flush).state.utf16_buffer
        = utf16Encode s ++ [0]
    ∧ ((WinDbgWriter.write { buffer := [], utf16_buffer := [] } bs).1.flush).ioError
        = false
    ∧ utf16Decode (utf16Encode s) = some s := by
  have hw := write_no_newline { buffer := [], utf16_buffer := [] } bs h10 hne
  rw [hw]
  simp only [List.nil_append]
  unfold WinDbgWriter.flush
  rw [if_neg hne]
  rw [show utf8Decode ({ buffer := bs, utf16_buffer := [] } : WinDbgWriter).buffer
      = Except.ok s from hdec]
  simp [utf16Decode_encode s (utf8DecodeGo_ok_valid 0 bs s hdec)]

theorem c8_write_flush_utf16_roundtrip_witness :
    (WinDbgWriter.write { buffer := [], utf16_buffer := [] } [226, 130, 172]).2 = []
    ∧ (WinDbgWriter.write { buffer := [], utf16_buffer := [] } [226, 130, 172]).1.buffer
        = [226, 130, 172]
    ∧ ((WinDbgWriter.write { buffer := [], utf16_buffer := [] } [226, 130, 172]).1.flush).emitted
        = some (utf16Encode [8364] ++ [0])
    ∧ ((WinDbgWriter.write { buffer := [], utf16_buffer := [] } [226, 130, 172]).1.flush).state.buffer
        = []
    ∧ ((WinDbgWriter.write { buffer := [], utf16_buffer := [] } [226, 130, 172]).1.flush).state.utf16_buffer
        = utf16Encode [8364] ++ [0]
    ∧ ((WinDbgWriter.write { buffer := [], utf16_buffer := [] } [226, 130, 172]).1.flush).ioError
        = false
    ∧ utf16Decode (utf16Encode [8364]) = some [8364] :=
  c8_write_flush_utf16_roundtrip [226, 130, 172] [8364] (by decide) (by decide)
    rfl

/-- C9: flushing a non-empty buffer that is not valid UTF-8 substitutes the
literal diagnostic string (the message built from the decode error) for the
payload, still emits it null-terminated, clears the byte buffer and returns
success — the decode failure is never surfaced as an I/O error and the
corrupted payload is never silently dropped. -/
theorem c9_flush_substitutes_decode_error (w : WinDbgWriter) (e : Utf8Error)
    (hne : ¬ w.buffer = []) (hdec : utf8Decode w.buffer = .error e) :
    (w.flush).emitted
      = some (utf16Encode (strToScalars (windbgDecodeErrorMessage e)) ++ [0])
    ∧ (w.flush).state.buffer = []
    ∧ (w.flush).state.utf16_buffer
      = utf16Encode (strToScalars (windbgDecodeErrorMessage e)) ++ [0]
    ∧ (w.flush).ioError = false := by
  unfold WinDbgWriter.flush
  rw [if_neg hne, hdec]
  simp

theorem c9_flush_substitutes_decode_error_witness :
    (({ buffer := [255], utf16_buffer := [] } : WinDbgWriter).flush).emitted
      = some (utf16Encode (strToScalars (windbgDecodeErrorMessage
          { valid_up_to := 0, error_len := some 1 })) ++ [0])
    ∧ (({ buffer := [255], utf16_buffer := [] } : WinDbgWriter).flush).state.buffer = []
    ∧ (({ buffer := [255], utf16_buffer := [] } : WinDbgWriter).flush).state.utf16_buffer
      = utf16Encode (strToScalars (windbgDecodeErrorMessage
          { valid_up_to := 0, error_len := some 1 })) ++ [0]
    ∧ (({ buffer := [255], utf16_buffer := [] } : WinDbgWriter).flush).ioError = false :=
  c9_flush_substitutes_decode_error { buffer := [255], utf16_buffer := [] }
    { valid_up_to := 0, error_len := some 1 } (by decide) rfl

/-- C10: `filter_crate` and `filter_module` insert the name into the same
single blacklist set and yield identical builders, so every logger built
from one is indistinguishable from a logger built from the other. -/
theorem c10_filter_crate_eq_filter_module (b : LoggerBuilder) (name : String) :
    b.filter_crate name = b.filter_module name
    ∧ (b.filter_crate name).module_blacklist
        = hashSetInsert name b.module_blacklist :=
  ⟨rfl, rfl⟩

end NihLog
